import Mathlib

/-!
Verification of the `myls` language server core (`crates/ls_core/src/lib.rs`).

The development shallowly embeds the pure logic of the server:

* the framing writer `LServer::respond` / `LServer::respond_with_error`
  (both build the identical header via the same `format!` string and print
  it with `println!`);
* the framing reader `LServer::read` (header loop over `read_line` into an
  accumulating `String` buffer, then an exact-length body read);
* the dispatch loop `LServer::run` (consecutive-failure counter, exit and
  panic paths);
* the definition resolver `LServer::message_response` together with
  `get_controller_possible_uris`, `path_from_uri` and
  `get_first_opening_file`.

Strings are modelled as `List Char` (Rust `String`/`&str`) and wire data as
`List Nat` of byte values (Rust `Vec<u8>` / stdout bytes).  The tree-sitter
library (HTML/JavaScript/TypeScript parsing and structural queries) is an
external collaborator; its per-request answers are supplied by a
`ResolveEnv` record, and the resolver's control flow over those answers is
translated from the source.
-/

/-! ## List/string utilities mirroring the Rust std methods used -/

/-- Rust `str::strip_prefix` on character lists: `some rest` iff `p` is a
prefix, returning the remainder. -/
def stripPrefixL : List Char → List Char → Option (List Char)
  | [], l => some l
  | _ :: _, [] => none
  | p :: ps, c :: cs => if c = p then stripPrefixL ps cs else none

/-- Rust `str::strip_suffix`, implemented via `stripPrefixL` on reverses. -/
def stripSuffixL (l suf : List Char) : Option (List Char) :=
  (stripPrefixL suf.reverse l.reverse).map List.reverse

/-- Split at the first occurrence of character `c` (Rust `str::split_once`
with a single-character pattern): the separator is dropped. -/
def splitOnceCharL (c : Char) : List Char → Option (List Char × List Char)
  | [] => none
  | x :: xs =>
    if x = c then some ([], xs)
    else (splitOnceCharL c xs).map (fun p => (x :: p.1, p.2))

/-- Rust `str::rsplit_once` with a single-character pattern: split at the
last occurrence, returning (before, after). -/
def rsplitOnceL (c : Char) (l : List Char) : Option (List Char × List Char) :=
  (splitOnceCharL c l.reverse).map (fun p => (p.2.reverse, p.1.reverse))

/-- Rust `str::split` with a single-character pattern: the list of segments
between separators, keeping empty segments (so `"".split` is `[""]`). -/
def splitOnL (c : Char) : List Char → List (List Char)
  | [] => [[]]
  | x :: xs =>
    let r := splitOnL c xs
    if x = c then [] :: r
    else
      match r with
      | [] => [[x]]
      | h :: t => (x :: h) :: t

/-- One segment of the pascal-case join in `get_controller_possible_uris`:
uppercase the first character, keep the rest.  `Char.toUpper` models Rust
`char::to_uppercase`; the two agree on ASCII, which is all the repository's
naming convention (hyphenated ASCII file names) exercises. -/
def capitalizeL : List Char → List Char
  | [] => []
  | c :: cs => c.toUpper :: cs

/-- The pascal-case join from `get_controller_possible_uris`: split the
filename on `-`, capitalize each segment, concatenate. -/
def pascalifyL (l : List Char) : List Char :=
  ((splitOnL '-' l).map capitalizeL).flatten

/-! ## `LServer::get_controller_possible_uris` and `LServer::path_from_uri` -/

/-- Embedding of `LServer::get_controller_possible_uris` (lib.rs:505-526):
strip the `.html` suffix, split off the final `/`, pascal-case the filename,
and produce the three candidates with suffixes `Controller`, `Directive`,
and the empty string, each ending in `.ts`.  Returns `[]` if the suffix or
the separator is absent. -/
def get_controller_possible_uris (uri : List Char) : List (List Char) :=
  ((((stripSuffixL uri ".html".data).bind (fun u => rsplitOnceL '/' u)).map
    (fun p =>
      let pascalified := pascalifyL p.2
      [p.1 ++ '/' :: (pascalified ++ "Controller.ts".data),
       p.1 ++ '/' :: (pascalified ++ "Directive.ts".data),
       p.1 ++ '/' :: (pascalified ++ ".ts".data)])).getD [])

/-- Embedding of `LServer::path_from_uri` (lib.rs:528-534): strip the
literal `file://` prefix; any other scheme hits `todo!()`, a panic, which
the model renders as `none` (an explicit failure, never a path). -/
def path_from_uri (uri : List Char) : Option (List Char) :=
  stripPrefixL "file://".data uri

/-! ### Lemmas about the list utilities -/

theorem stripPrefixL_append (p l : List Char) : stripPrefixL p (p ++ l) = some l := by
  induction p with
  | nil => rfl
  | cons c cs ih => simp [stripPrefixL, ih]

theorem stripPrefixL_eq_none_iff (p l : List Char) :
    stripPrefixL p l = none ↔ ¬ p <+: l := by
  induction p generalizing l with
  | nil => simp [stripPrefixL]
  | cons c cs ih =>
    cases l with
    | nil => simp [stripPrefixL]
    | cons x xs =>
      by_cases h : x = c
      · subst h
        simp [stripPrefixL, ih, List.cons_prefix_cons]
      · simp only [stripPrefixL, if_neg h, List.cons_prefix_cons]
        constructor
        · rintro - ⟨e, -⟩
          exact h e.symm
        · intro _
          trivial

theorem stripPrefixL_eq_some_iff (p l r : List Char) :
    stripPrefixL p l = some r ↔ l = p ++ r := by
  induction p generalizing l with
  | nil => simp [stripPrefixL, eq_comm]
  | cons c cs ih =>
    cases l with
    | nil => simp [stripPrefixL]
    | cons x xs =>
      by_cases h : x = c
      · subst h
        simp [stripPrefixL, ih]
      · simp only [stripPrefixL, if_neg h]
        constructor
        · intro he
          exact absurd he (by simp)
        · intro he
          rw [List.cons_append] at he
          injection he with h1 _
          exact absurd h1 h

theorem stripSuffixL_append (a s : List Char) : stripSuffixL (a ++ s) s = some a := by
  unfold stripSuffixL
  rw [List.reverse_append, stripPrefixL_append]
  simp

theorem stripSuffixL_eq_none_iff (l s : List Char) :
    stripSuffixL l s = none ↔ ¬ s <:+ l := by
  unfold stripSuffixL
  simp [stripPrefixL_eq_none_iff]

theorem stripSuffixL_eq_some_iff (l s u : List Char) :
    stripSuffixL l s = some u ↔ l = u ++ s := by
  unfold stripSuffixL
  constructor
  · intro h
    obtain ⟨r, hr, hu⟩ := Option.map_eq_some'.1 h
    rw [stripPrefixL_eq_some_iff] at hr
    have hrev := congrArg List.reverse hr
    simp at hrev
    rw [hrev, ← hu]
  · intro h
    subst h
    rw [show (u ++ s).reverse = s.reverse ++ u.reverse by simp, stripPrefixL_append]
    simp

theorem splitOnceCharL_append_of_not_mem (c : Char) (pre post : List Char)
    (h : c ∉ pre) : splitOnceCharL c (pre ++ c :: post) = some (pre, post) := by
  induction pre with
  | nil => simp [splitOnceCharL]
  | cons x xs ih =>
    have hx : x ≠ c := fun e => h (e ▸ List.mem_cons_self x xs)
    have hmem : c ∉ xs := fun m => h (List.mem_cons_of_mem x m)
    simp [splitOnceCharL, hx, ih hmem]

theorem splitOnceCharL_eq_none_iff (c : Char) (l : List Char) :
    splitOnceCharL c l = none ↔ c ∉ l := by
  induction l with
  | nil => simp [splitOnceCharL]
  | cons x xs ih =>
    by_cases h : x = c
    · simp [splitOnceCharL, h]
    · have hx : ¬ c = x := fun e => h e.symm
      simp [splitOnceCharL, h, ih, hx]

theorem rsplitOnceL_append (dir fname : List Char) (h : '/' ∉ fname) :
    rsplitOnceL '/' (dir ++ '/' :: fname) = some (dir, fname) := by
  unfold rsplitOnceL
  have hrev : '/' ∉ fname.reverse := by simpa using h
  rw [show (dir ++ '/' :: fname).reverse = fname.reverse ++ '/' :: dir.reverse by
        simp]
  rw [splitOnceCharL_append_of_not_mem _ _ _ hrev]
  simp

theorem rsplitOnceL_eq_none_iff (c : Char) (l : List Char) :
    rsplitOnceL c l = none ↔ c ∉ l := by
  unfold rsplitOnceL
  simp [splitOnceCharL_eq_none_iff]

/-- Candidate derivation on a URI of the shape `dir ++ "/" ++ fname ++ ".html"`
with a separator-free filename yields exactly the three suffixed candidates. -/
theorem get_controller_possible_uris_eq (dir fname : List Char) (h : '/' ∉ fname) :
    get_controller_possible_uris (dir ++ '/' :: (fname ++ ".html".data)) =
      [dir ++ '/' :: (pascalifyL fname ++ "Controller.ts".data),
       dir ++ '/' :: (pascalifyL fname ++ "Directive.ts".data),
       dir ++ '/' :: (pascalifyL fname ++ ".ts".data)] := by
  have h1 : stripSuffixL (dir ++ '/' :: (fname ++ ".html".data)) ".html".data =
      some (dir ++ '/' :: fname) := by
    rw [show dir ++ '/' :: (fname ++ ".html".data) = (dir ++ '/' :: fname) ++ ".html".data by
          simp]
    exact stripSuffixL_append _ _
  simp [get_controller_possible_uris, h1, rsplitOnceL_append dir fname h]

theorem get_controller_possible_uris_no_suffix (uri : List Char)
    (h : ¬ ".html".data <:+ uri) : get_controller_possible_uris uri = [] := by
  simp [get_controller_possible_uris, (stripSuffixL_eq_none_iff uri ".html".data).2 h]

theorem get_controller_possible_uris_no_slash (uri : List Char)
    (h : '/' ∉ uri) : get_controller_possible_uris uri = [] := by
  cases hs : stripSuffixL uri ".html".data with
  | none => simp [get_controller_possible_uris, hs]
  | some u =>
    have hu : uri = u ++ ".html".data := (stripSuffixL_eq_some_iff _ _ _).1 hs
    have hslash : '/' ∉ u := fun hm => h (hu ▸ List.mem_append_left _ hm)
    simp [get_controller_possible_uris, hs, (rsplitOnceL_eq_none_iff '/' u).2 hslash]

/-! ## Bytes, UTF-8 and decimal digits -/

/-- Number of bytes of a character's UTF-8 encoding (what Rust `String::len`
counts). -/
def charBytes (c : Char) : Nat :=
  if c.toNat < 0x80 then 1
  else if c.toNat < 0x800 then 2
  else if c.toNat < 0x10000 then 3
  else 4

/-- The UTF-8 encoding of one character, as byte values. -/
def charUtf8 (c : Char) : List Nat :=
  let v := c.toNat
  if v < 0x80 then [v]
  else if v < 0x800 then [0xC0 + v / 0x40, 0x80 + v % 0x40]
  else if v < 0x10000 then
    [0xE0 + v / 0x1000, 0x80 + v / 0x40 % 0x40, 0x80 + v % 0x40]
  else
    [0xF0 + v / 0x40000, 0x80 + v / 0x1000 % 0x40, 0x80 + v / 0x40 % 0x40,
     0x80 + v % 0x40]

/-- UTF-8 encoding of a string (the bytes Rust writes to stdout / reads from
stdin). -/
def strToBytes (l : List Char) : List Nat :=
  (l.map charUtf8).flatten

/-- Byte length of a string's UTF-8 encoding: Rust `String::len`. -/
def utf8Len (l : List Char) : Nat :=
  (l.map charBytes).sum

theorem charUtf8_length (c : Char) : (charUtf8 c).length = charBytes c := by
  unfold charUtf8 charBytes
  by_cases h1 : c.toNat < 0x80
  · simp [h1]
  · by_cases h2 : c.toNat < 0x800
    · simp [h1, h2]
    · by_cases h3 : c.toNat < 0x10000
      · simp [h1, h2, h3]
      · simp [h1, h2, h3]

theorem strToBytes_length (l : List Char) : (strToBytes l).length = utf8Len l := by
  induction l with
  | nil => rfl
  | cons c cs ih =>
    simp [strToBytes, utf8Len, charUtf8_length] at *
    simp [ih]

theorem strToBytes_append (a b : List Char) :
    strToBytes (a ++ b) = strToBytes a ++ strToBytes b := by
  simp [strToBytes]

/-- Decimal digit characters, used for the `{content_length}` interpolation. -/
def digitChar : Nat → Char
  | 0 => '0' | 1 => '1' | 2 => '2' | 3 => '3' | 4 => '4'
  | 5 => '5' | 6 => '6' | 7 => '7' | 8 => '8' | _ => '9'

/-- Fuelled decimal printer (most significant digit first); the fuel only
serves structural recursion and `digitsChars` always supplies enough. -/
def digitsCharsAux : Nat → Nat → List Char
  | 0, _ => []
  | fuel + 1, n =>
    if n < 10 then [digitChar n]
    else digitsCharsAux fuel (n / 10) ++ [digitChar (n % 10)]

/-- Decimal representation of a `Nat`, as Rust `format!("{n}")` prints it. -/
def digitsChars (n : Nat) : List Char :=
  digitsCharsAux (n + 1) n

/-- Byte values of the decimal representation. -/
def digitsBytes (n : Nat) : List Nat :=
  strToBytes (digitsChars n)

/-! ## The framing writer: `LServer::respond` / `LServer::respond_with_error` -/

/-- Embedding of the output of `LServer::respond` (lib.rs:321-329) and
`LServer::respond_with_error` (lib.rs:311-319), which share the same
`format!` template: given the serialized body text, both build
`"Content-Length: {n}\r\nContent-Length: {n}\r\n\r\n{body}"` where `n` is
`body.len()` (the UTF-8 byte length), and `println!` appends a final
newline. -/
def respond (body : List Char) : List Char :=
  let n := utf8Len body
  "Content-Length: ".data ++ digitsChars n ++
    "\r\nContent-Length: ".data ++ digitsChars n ++
    "\r\n\r\n".data ++ body ++ "\n".data

/-- One `Content-Length` header line, as bytes on the wire. -/
def clLineBytes (n : Nat) : List Nat :=
  strToBytes "Content-Length: ".data ++ digitsBytes n ++ [13, 10]

theorem digitChar_utf8 (d : Nat) (h : d < 10) : charUtf8 (digitChar d) = [d + 48] := by
  interval_cases d <;> rfl

/-- Byte-level view of the fuelled decimal printer. -/
def digitsBytesAux : Nat → Nat → List Nat
  | 0, _ => []
  | fuel + 1, n =>
    if n < 10 then [n + 48]
    else digitsBytesAux fuel (n / 10) ++ [n % 10 + 48]

theorem strToBytes_digitsCharsAux (fuel n : Nat) :
    strToBytes (digitsCharsAux fuel n) = digitsBytesAux fuel n := by
  induction fuel generalizing n with
  | zero => rfl
  | succ fuel ih =>
    by_cases h10 : n < 10
    · simp [digitsCharsAux, digitsBytesAux, h10, strToBytes, digitChar_utf8 n h10]
    · have hmod := digitChar_utf8 _ (Nat.mod_lt n (show 0 < 10 by omega))
      simp only [digitsCharsAux, digitsBytesAux, if_neg h10, strToBytes_append, ih]
      simp [strToBytes, hmod]

theorem digitsBytes_eq_aux (n : Nat) : digitsBytes n = digitsBytesAux (n + 1) n :=
  strToBytes_digitsCharsAux (n + 1) n

theorem digitsBytesAux_mem (fuel m b : Nat) (hb : b ∈ digitsBytesAux fuel m) :
    48 ≤ b ∧ b ≤ 57 := by
  induction fuel generalizing m with
  | zero => simp [digitsBytesAux] at hb
  | succ fuel ih =>
    by_cases h10 : m < 10
    · simp [digitsBytesAux, h10] at hb
      omega
    · rw [digitsBytesAux, if_neg h10] at hb
      rcases List.mem_append.1 hb with hl | hr
      · exact ih _ hl
      · simp at hr
        have := Nat.mod_lt m (show 0 < 10 by omega)
        omega

/-- Each byte of the decimal representation is an ASCII digit. -/
theorem digitsBytes_mem (n b : Nat) (hb : b ∈ digitsBytes n) :
    48 ≤ b ∧ b ≤ 57 :=
  digitsBytesAux_mem (n + 1) n b (digitsBytes_eq_aux n ▸ hb)

theorem digitsBytes_ne_nil (n : Nat) : digitsBytes n ≠ [] := by
  rw [digitsBytes_eq_aux]
  by_cases h10 : n < 10 <;> simp [digitsBytesAux, h10]

/-- The wire bytes of a framed response: two identical `Content-Length`
lines, a blank line, the body bytes, and the `println!` newline. -/
theorem respond_wire (body : List Char) :
    strToBytes (respond body) =
      clLineBytes (utf8Len body) ++ clLineBytes (utf8Len body) ++
        [13, 10] ++ strToBytes body ++ [10] := by
  unfold respond clLineBytes digitsBytes
  simp only [strToBytes_append]
  have h1 : strToBytes "\r\nContent-Length: ".data =
      [13, 10] ++ strToBytes "Content-Length: ".data := by decide
  have h2 : strToBytes "\r\n\r\n".data = [13, 10] ++ [13, 10] := by decide
  have h3 : strToBytes "\n".data = [10] := by decide
  rw [h1, h2, h3]
  simp [List.append_assoc]

/-! ## The framing reader: `LServer::read` (lib.rs:271-309)

The header loop repeatedly calls `io::stdin().read_line(&mut buf)`, which
APPENDS the next line to `buf` without clearing it; the loop then re-parses
the whole accumulated buffer each iteration.  The model reproduces this
accumulation exactly.  The body stage reads exactly `content_length` bytes.
The final `serde_json` decode of the body text is a later stage and is not
part of the framing model.
-/

/-- One `read_line` call on a byte stream: everything up to and including
the first `\n` (byte 10), or the whole rest at end of input.  Returns
(line, remaining stream). -/
def readLineB : List Nat → List Nat × List Nat
  | [] => ([], [])
  | b :: rest =>
    if b = 10 then ([10], rest)
    else
      let p := readLineB rest
      (b :: p.1, p.2)

/-- Rust `str::split_once(":")` at byte level (byte 58 is `:`). -/
def splitOnceColon : List Nat → Option (List Nat × List Nat)
  | [] => none
  | b :: rest =>
    if b = 58 then some ([], rest)
    else (splitOnceColon rest).map (fun p => (b :: p.1, p.2))

/-- ASCII whitespace bytes removed by `str::trim` (the header values here
are ASCII, where Rust's Unicode whitespace set restricts to these). -/
def wsB (b : Nat) : Bool :=
  b = 32 || b = 9 || b = 10 || b = 11 || b = 12 || b = 13

/-- Rust `str::trim` at byte level. -/
def trimB (l : List Nat) : List Nat :=
  ((l.dropWhile wsB).reverse.dropWhile wsB).reverse

def isDigitB (b : Nat) : Bool :=
  decide (48 ≤ b) && decide (b ≤ 57)

/-- The optional leading `+` sign accepted by Rust integer parsing. -/
def stripPlus (l : List Nat) : List Nat :=
  match l with
  | b :: rest => if b = 43 then rest else l
  | [] => l

/-- Rust `str::parse::<u32>`: an optional leading `+`, then one or more
ASCII digits, value below `2^32` (overflow is an error). -/
def parseU32 (l : List Nat) : Option Nat :=
  let l2 := stripPlus l
  if l2 = [] then none
  else if l2.all isDigitB then
    let v := l2.foldl (fun a b => a * 10 + (b - 48)) 0
    if v < 2 ^ 32 then some v else none
  else none

/-- `Content-Length` as header-name bytes. -/
def clNameBytes : List Nat :=
  strToBytes "Content-Length".data

/-- Whether the accumulated buffer ends in `\r\n\r\n` (Rust
`str::ends_with`). -/
def endsCrlf2 (l : List Nat) : Bool :=
  decide (l.reverse.take 4 = [10, 13, 10, 13])

/-- Result of the header loop: the final `content_length` option and the
unconsumed stream, a fatal header error (the `?`-propagated
`ParseError::Header`), or divergence (end of input repeats the same
unchanged buffer forever, which in the Rust loop spins without progress). -/
inductive HeaderOut : Type
  | done (cl : Option Nat) (rest : List Nat)
  | fatal
  | hang
deriving DecidableEq

/-- One iteration of the header loop of `LServer::read`, after `read_line`
produced `line` and left `rest` unread: append `line` to the accumulated
`buf`; break on an empty buffer (end of input before any byte) or a buffer
equal to `"\r\n"`; otherwise `split_once(":")` the WHOLE accumulated buffer
(missing colon is fatal); if the name is `Content-Length`, `trim`-and-parse
the value (parse failure is fatal); break once the buffer ends with
`"\r\n\r\n"`; an empty `line` (end of input) makes the Rust loop repeat the
identical iteration forever, modelled as `hang`. -/
def headerIter (line rest buf : List Nat) (cl : Option Nat)
    (recur : List Nat → List Nat → Option Nat → HeaderOut) : HeaderOut :=
  if buf ++ line = [] then .done cl rest
  else if buf ++ line = [13, 10] then .done cl rest
  else
    match splitOnceColon (buf ++ line) with
    | none => .fatal
    | some (name, value) =>
      if name = clNameBytes then
        match parseU32 (trimB value) with
        | none => .fatal
        | some n =>
          if endsCrlf2 (buf ++ line) then .done (some n) rest
          else if line = [] then .hang
          else recur rest (buf ++ line) (some n)
      else
        if endsCrlf2 (buf ++ line) then .done cl rest
        else if line = [] then .hang
        else recur rest (buf ++ line) cl

/-- The header loop of `LServer::read`.  `fuel` only bounds the structural
recursion; `read_framing` supplies `stream.length + 1`, which is never
exhausted because every continuing iteration consumes at least one stream
byte. -/
def headerLoop : Nat → List Nat → List Nat → Option Nat → HeaderOut
  | 0, _, _, _ => .hang
  | fuel + 1, stream, buf, cl =>
    headerIter (readLineB stream).1 (readLineB stream).2 buf cl (headerLoop fuel)

/-- Outcome of the framing stage of `LServer::read`: the body bytes plus
the unconsumed stream, `ParseError::Header`, an IO error from `read_exact`
hitting end of input, or the spinning-on-EOF divergence. -/
inductive FrameOut : Type
  | body (b : List Nat) (rest : List Nat)
  | headerErr
  | ioErr
  | hang
deriving DecidableEq

/-- Framing stage of `LServer::read` (lib.rs:271-302): run the header loop,
require a `Content-Length` (its absence is `ParseError::Header`), then read
exactly that many body bytes. -/
def read_framing (input : List Nat) : FrameOut :=
  match headerLoop (input.length + 1) input [] none with
  | .fatal => .headerErr
  | .hang => .hang
  | .done none _ => .headerErr
  | .done (some n) rest =>
    if rest.length < n then .ioErr
    else .body (rest.take n) (rest.drop n)

example : read_framing (strToBytes "Content-Length: 3\r\n\r\nabcd".data) =
    .body (strToBytes "abc".data) (strToBytes "d".data) := by decide

example : read_framing (strToBytes "Content-Length: 3\r\nOther: x\r\n\r\nabc".data) =
    .headerErr := by decide

example : read_framing (strToBytes "Other: x\r\nContent-Length: 3\r\n\r\nabc".data) =
    .headerErr := by decide

example : read_framing (strToBytes "Content-Length: 3\r\nContent-Length: 3\r\n\r\nabc".data) =
    .headerErr := by decide

example : read_framing (strToBytes "garbage\r\n\r\nabc".data) = .headerErr := by decide

example : read_framing (strToBytes "\r\nabc".data) = .headerErr := by decide

example : read_framing (strToBytes "Content-Length: x3\r\n\r\nabc".data) =
    .headerErr := by decide

/-! ### Lemmas about the framing reader -/

theorem readLineB_split (pre tail : List Nat) (h : ∀ b ∈ pre, b ≠ 10) :
    readLineB (pre ++ 10 :: tail) = (pre ++ [10], tail) := by
  induction pre with
  | nil => simp [readLineB]
  | cons b bs ih =>
    have hb : b ≠ 10 := h b (List.mem_cons_self _ _)
    have hbs : ∀ x ∈ bs, x ≠ 10 := fun x hx => h x (List.mem_cons_of_mem _ hx)
    simp [readLineB, hb, ih hbs]

theorem splitOnceColon_append (pre post : List Nat) (h : ∀ b ∈ pre, b ≠ 58) :
    splitOnceColon (pre ++ 58 :: post) = some (pre, post) := by
  induction pre with
  | nil => simp [splitOnceColon]
  | cons b bs ih =>
    have hb : b ≠ 58 := h b (List.mem_cons_self _ _)
    have hbs : ∀ x ∈ bs, x ≠ 58 := fun x hx => h x (List.mem_cons_of_mem _ hx)
    simp [splitOnceColon, hb, ih hbs]

theorem dropWhile_append_all (p : Nat → Bool) (l₁ l₂ : List Nat)
    (h : ∀ b ∈ l₁, p b = true) : (l₁ ++ l₂).dropWhile p = l₂.dropWhile p := by
  induction l₁ with
  | nil => rfl
  | cons b bs ih =>
    have hb : p b = true := h b (List.mem_cons_self _ _)
    have hbs : ∀ x ∈ bs, p x = true := fun x hx => h x (List.mem_cons_of_mem _ hx)
    simp [List.dropWhile_cons, hb, ih hbs]

/-- Trimming a value of the shape `" " ++ mid ++ trailing-whitespace` where
`mid` starts and ends with a non-whitespace byte yields `mid`. -/
theorem trimB_32 (mid tl : List Nat) (htl : ∀ b ∈ tl, wsB b = true)
    (hh : ∃ d m, mid = d :: m ∧ wsB d = false)
    (hl : ∃ m e, mid = m ++ [e] ∧ wsB e = false) :
    trimB (32 :: (mid ++ tl)) = mid := by
  obtain ⟨d, m, hm, hd⟩ := hh
  obtain ⟨m2, e, hm2, he⟩ := hl
  unfold trimB
  have h32 : wsB 32 = true := by decide
  have hdw : (32 :: (mid ++ tl)).dropWhile wsB = mid ++ tl := by
    rw [List.dropWhile_cons, if_pos h32, hm, List.cons_append,
      List.dropWhile_cons, if_neg (by simp [hd]), ← List.cons_append, ← hm]
  rw [hdw, List.reverse_append,
    dropWhile_append_all _ _ _ (fun b hb => htl b (List.mem_reverse.1 hb))]
  rw [hm2]
  have hrev : (m2 ++ [e]).reverse = e :: m2.reverse := by simp
  rw [hrev, List.dropWhile_cons, if_neg (by simp [he])]
  simp

theorem clNameBytes_no10 : ∀ b ∈ clNameBytes, b ≠ 10 ∧ b ≠ 58 := by decide

theorem clNameBytes_len : clNameBytes.length = 14 := by decide

theorem clHeader_eq : strToBytes "Content-Length: ".data = clNameBytes ++ [58, 32] := by
  decide

theorem clLineBytes_decomp (n : Nat) :
    clLineBytes n = clNameBytes ++ 58 :: 32 :: (digitsBytes n ++ [13, 10]) := by
  unfold clLineBytes
  rw [clHeader_eq]
  simp

theorem clName_append_ne (x : List Nat) :
    clNameBytes ++ x ≠ [] ∧ clNameBytes ++ x ≠ [13, 10] := by
  constructor <;> intro h <;> have hlen := congrArg List.length h <;>
    (simp only [List.length_append, clNameBytes_len, List.length_nil,
      List.length_cons] at hlen) <;> omega

theorem digitsBytes_nws (n : Nat) : ∀ b ∈ digitsBytes n, wsB b = false := by
  intro b hb
  have := digitsBytes_mem n b hb
  simp [wsB]
  omega

theorem endsCrlf2_false_digit (A ds : List Nat) (hne : ds ≠ [])
    (hds : ∀ b ∈ ds, 48 ≤ b ∧ b ≤ 57) :
    endsCrlf2 (A ++ (ds ++ [13, 10])) = false := by
  rcases List.eq_nil_or_concat ds with h | ⟨q, e, he⟩
  · exact absurd h hne
  have hde : ds = q ++ [e] := by rw [he, List.concat_eq_append]
  have heb := hds e (by rw [hde]; exact List.mem_append_right _ (by simp))
  have hrev : (A ++ (ds ++ [13, 10])).reverse =
      10 :: 13 :: e :: (q.reverse ++ A.reverse) := by
    rw [hde]
    simp
  simp only [endsCrlf2, hrev, List.take_succ_cons, decide_eq_false_iff_not]
  intro hcon
  simp only [List.cons.injEq] at hcon
  omega

theorem parseU32_none_of_mem13 (l : List Nat)
    (hhead : ∃ d m, l = d :: m ∧ 48 ≤ d ∧ d ≤ 57) (h13 : 13 ∈ l) :
    parseU32 l = none := by
  obtain ⟨d, m, rfl, hd1, hd2⟩ := hhead
  have hall : ¬ ((d :: m).all isDigitB = true) := by
    intro hc
    have := List.all_eq_true.1 hc 13 h13
    simp [isDigitB] at this
  unfold parseU32 stripPlus
  dsimp only
  rw [if_neg (show ¬ d = 43 by omega), if_neg (by simp), if_neg hall]

theorem trimB_32_digits (n : Nat) (tl : List Nat) (htl : ∀ b ∈ tl, wsB b = true) :
    trimB (32 :: (digitsBytes n ++ tl)) = digitsBytes n := by
  apply trimB_32 _ _ htl
  · obtain ⟨d, m, hm⟩ := List.exists_cons_of_ne_nil (digitsBytes_ne_nil n)
    exact ⟨d, m, hm, digitsBytes_nws n d (hm ▸ List.mem_cons_self _ _)⟩
  · rcases List.eq_nil_or_concat (digitsBytes n) with h | ⟨q, e, he⟩
    · exact absurd h (digitsBytes_ne_nil n)
    · have hde : digitsBytes n = q ++ [e] := by rw [he, List.concat_eq_append]
      exact ⟨q, e, hde, digitsBytes_nws n e (hde ▸ List.mem_append_right _ (by simp))⟩

theorem clLineP_no10 (n : Nat) :
    ∀ b ∈ clNameBytes ++ 58 :: 32 :: (digitsBytes n ++ [13]), b ≠ 10 := by
  intro b hb
  rcases List.mem_append.1 hb with h | h
  · exact (clNameBytes_no10 b h).1
  rcases List.mem_cons.1 h with h | h
  · omega
  rcases List.mem_cons.1 h with h | h
  · omega
  rcases List.mem_append.1 h with h | h
  · have := digitsBytes_mem n b h
    omega
  · have hb13 : b = 13 := by simpa using h
    omega

theorem readLineB_clLine (n : Nat) (tail : List Nat) :
    readLineB (clLineBytes n ++ tail) = (clLineBytes n, tail) := by
  have hP : clLineBytes n ++ tail =
      (clNameBytes ++ 58 :: 32 :: (digitsBytes n ++ [13])) ++ 10 :: tail := by
    rw [clLineBytes_decomp]
    simp
  rw [hP, readLineB_split _ _ (clLineP_no10 n)]
  rw [clLineBytes_decomp]
  simp

theorem clNameBytes_no58 : ∀ b ∈ clNameBytes, b ≠ 58 :=
  fun b hb => (clNameBytes_no10 b hb).2

/-- First iteration of the header loop on a well-formed `Content-Length`
line: the header name parses, the loop records the parsed value (or fails
fatally when the digits do not parse, e.g. on 2^32 overflow) and continues
with the line left in the accumulated buffer. -/
theorem headerLoop_clLine_first (f n : Nat) (tail : List Nat) :
    headerLoop (f + 1) (clLineBytes n ++ tail) [] none =
      match parseU32 (digitsBytes n) with
      | none => .fatal
      | some m => headerLoop f tail (clLineBytes n) (some m) := by
  simp only [headerLoop]
  rw [readLineB_clLine]
  dsimp only
  unfold headerIter
  simp only [List.nil_append]
  rw [if_neg (by rw [clLineBytes_decomp]; exact (clName_append_ne _).1),
    if_neg (by rw [clLineBytes_decomp]; exact (clName_append_ne _).2)]
  have hsplit : splitOnceColon (clLineBytes n) =
      some (clNameBytes, 32 :: (digitsBytes n ++ [13, 10])) := by
    rw [clLineBytes_decomp]
    exact splitOnceColon_append _ _ clNameBytes_no58
  rw [hsplit]
  dsimp only
  rw [if_pos rfl]
  rw [show (32 :: (digitsBytes n ++ [13, 10])) = 32 :: (digitsBytes n ++ [13, 10]) from rfl,
    trimB_32_digits n [13, 10] (by decide)]
  cases hp : parseU32 (digitsBytes n) with
  | none => rfl
  | some m =>
    have hend : endsCrlf2 (clLineBytes n) = false := by
      rw [show clLineBytes n = (clNameBytes ++ [58, 32]) ++ (digitsBytes n ++ [13, 10]) by
            rw [clLineBytes_decomp]; simp]
      exact endsCrlf2_false_digit _ _ (digitsBytes_ne_nil n) (digitsBytes_mem n)
    have hne2 : clLineBytes n ≠ [] := by
      rw [clLineBytes_decomp]
      exact (clName_append_ne _).1
    rw [hend]
    simp [hne2]

/-- Second iteration when ANOTHER `Content-Length` line follows (as in the
writer's own output): the accumulated buffer's value now contains the whole
second line, its trim still holds a `\r` byte, and the numeric parse fails,
a fatal `ParseError::Header`. -/
theorem headerLoop_clLine_again (f n : Nat) (tail : List Nat) (cl : Option Nat) :
    headerLoop (f + 1) (clLineBytes n ++ tail) (clLineBytes n) cl = .fatal := by
  simp only [headerLoop]
  rw [readLineB_clLine]
  dsimp only
  unfold headerIter
  have hb2 : clLineBytes n ++ clLineBytes n =
      clNameBytes ++ 58 :: (32 ::
        ((digitsBytes n ++ 13 :: 10 :: (clNameBytes ++ 58 :: 32 :: digitsBytes n))
          ++ [13, 10])) := by
    rw [clLineBytes_decomp]
    simp
  rw [hb2,
    if_neg (clName_append_ne _).1,
    if_neg (clName_append_ne _).2,
    splitOnceColon_append _ _ clNameBytes_no58]
  dsimp only
  rw [if_pos rfl]
  obtain ⟨d, ds0, hd0⟩ := List.exists_cons_of_ne_nil (digitsBytes_ne_nil n)
  have hdd := digitsBytes_mem n d (hd0 ▸ List.mem_cons_self _ _)
  have htrim : trimB (32 ::
      ((digitsBytes n ++ 13 :: 10 :: (clNameBytes ++ 58 :: 32 :: digitsBytes n))
        ++ [13, 10])) =
      digitsBytes n ++ 13 :: 10 :: (clNameBytes ++ 58 :: 32 :: digitsBytes n) := by
    apply trimB_32 _ _ (by decide)
    · refine ⟨d, ds0 ++ 13 :: 10 :: (clNameBytes ++ 58 :: 32 :: digitsBytes n), ?_, ?_⟩
      · rw [hd0]
        simp
      · have := digitsBytes_nws n d (hd0 ▸ List.mem_cons_self _ _)
        exact this
    · rcases List.eq_nil_or_concat (digitsBytes n) with hnil | ⟨q, e, he⟩
      · exact absurd hnil (digitsBytes_ne_nil n)
      · have hde : digitsBytes n = q ++ [e] := by rw [he, List.concat_eq_append]
        refine ⟨digitsBytes n ++ 13 :: 10 :: (clNameBytes ++ 58 :: 32 :: q), e, ?_, ?_⟩
        · conv_lhs => rw [hde]
          simp [hde]
        · exact digitsBytes_nws n e (hde ▸ List.mem_append_right _ (by simp))
  rw [htrim]
  have hparse : parseU32
      (digitsBytes n ++ 13 :: 10 :: (clNameBytes ++ 58 :: 32 :: digitsBytes n)) = none := by
    apply parseU32_none_of_mem13
    · refine ⟨d, ds0 ++ 13 :: 10 :: (clNameBytes ++ 58 :: 32 :: digitsBytes n), ?_, hdd.1, hdd.2⟩
      rw [hd0]
      simp
    · exact List.mem_append_right _ (List.mem_cons_self _ _)
  rw [hparse]

theorem headerLoop_double (f n : Nat) (tail : List Nat) :
    headerLoop (f + 2) (clLineBytes n ++ (clLineBytes n ++ tail)) [] none = .fatal := by
  rw [show f + 2 = (f + 1) + 1 from rfl, headerLoop_clLine_first (f + 1) n _]
  cases hp : parseU32 (digitsBytes n) with
  | none => rfl
  | some m => exact headerLoop_clLine_again f n tail (some m)

/-- Reading back the writer's own output always fails with a fatal Header
error: the duplicated `Content-Length` line accumulates in the reader's
buffer and makes the numeric re-parse fail. -/
theorem read_framing_respond (body : List Char) :
    read_framing (strToBytes (respond body)) = .headerErr := by
  rw [respond_wire]
  have hsh : clLineBytes (utf8Len body) ++ clLineBytes (utf8Len body) ++
      [13, 10] ++ strToBytes body ++ [10] =
      clLineBytes (utf8Len body) ++ (clLineBytes (utf8Len body) ++
        (13 :: 10 :: (strToBytes body ++ [10]))) := by
    simp
  rw [hsh]
  unfold read_framing
  obtain ⟨K, hK⟩ : ∃ K, (clLineBytes (utf8Len body) ++ (clLineBytes (utf8Len body) ++
      (13 :: 10 :: (strToBytes body ++ [10])))).length + 1 = K + 2 :=
    ⟨(clLineBytes (utf8Len body) ++ (clLineBytes (utf8Len body) ++
      (13 :: 10 :: (strToBytes body ++ [10])))).length - 1, by simp; omega⟩
  rw [hK, headerLoop_double K (utf8Len body) _]

/-! ## Messages, errors and the dispatch loop `LServer::run` (lib.rs:222-268) -/

/-- Zero-based position as produced by tree-sitter node boundaries and
stored into `LsTypePosition` (lib.rs:47-51). -/
structure LsPos : Type where
  row : Nat
  col : Nat
deriving DecidableEq

/-- `LsTypeRange` (lib.rs:100-104); the source field `end` is a Lean
keyword and is called `stop` here. -/
structure LsTypeRange : Type where
  start : LsPos
  stop : LsPos
deriving DecidableEq

/-- `LSMessageResponseLocation` (lib.rs:133-137). -/
structure LSMessageResponseLocation : Type where
  uri : List Char
  range : LsTypeRange
deriving DecidableEq

/-- The error kinds of `LSError` (lib.rs:543-555), payload texts omitted
except the method name used by `MethodNotFound`. -/
inductive LSErrorK : Type
  | internalError
  | invalidRequest
  | methodNotFound (method : List Char)
  | parseError
deriving DecidableEq

/-- `LSMessageResponseBody` (lib.rs:85-92): `RawType(LsType::Null)` is the
null result. -/
inductive LSResponseB : Type
  | initializeResp
  | locationResp (loc : LSMessageResponseLocation)
  | nullResp
  | shutdownResp
deriving DecidableEq

/-- Outcome of a fallible computation that can also panic (`todo!`,
`unwrap` on `None`): Rust panics abort the process, so they are a third
outcome distinct from `Ok`/`Err`. -/
inductive PResult (α : Type) : Type
  | ok (a : α)
  | err (e : LSErrorK)
  | panic
deriving DecidableEq

/-- `LSMessageRequestBody` (lib.rs:61-77): the typed request bodies;
`unknown` is the untagged fallback carrying the method name. -/
inductive LSRequestBody : Type
  | initializeReq
  | shutdown
  | textDocumentDefinition (uri : List Char) (pos : LsPos)
  | unknown (method : List Char)

/-- One decoded read outcome as seen by the loop in `LServer::run`:
a request, one of the two notifications, the `Response` variant (which the
untagged `LSMessage` decoding produces e.g. for the body `null`), or a
read/decode failure (`Err` from `LServer::read`). -/
inductive ReadIn : Type
  | msgReq (b : LSRequestBody)
  | msgInitialized
  | msgExit
  | msgResponse
  | readFail

/-- Result of one loop iteration: continue with the new consecutive-failure
count (`responded` records whether a response was written), leave the loop
(`break`), or panic. -/
inductive StepOut : Type
  | cont (count : Nat) (responded : Bool)
  | exited
  | panicked
deriving DecidableEq

/-- One iteration of `LServer::run` at consecutive-failure count `count`:
a successful decode first resets the counter to zero; a request is always
answered (`respond` or `respond_with_error`); `initialized` only logs;
`exit` breaks; the `Response` variant hits `todo!()`, a panic; a failure
increments the counter, answers nothing, and breaks when the counter
reaches 10. -/
def lsStep (count : Nat) : ReadIn → StepOut
  | .msgReq _ => .cont 0 true
  | .msgInitialized => .cont 0 false
  | .msgExit => .exited
  | .msgResponse => .panicked
  | .readFail => if count + 1 = 10 then .exited else .cont (count + 1) false

/-- Final state of the loop on a finite trace of read outcomes. -/
inductive RunOut : Type
  | exited
  | panicked
  | pending (count : Nat)
deriving DecidableEq

/-- `LServer::run` over a finite trace of read outcomes, threading the
consecutive-failure counter (`error_count`, initially 0). -/
def run : Nat → List ReadIn → RunOut
  | c, [] => .pending c
  | c, m :: rest =>
    match lsStep c m with
    | .cont c2 _ => run c2 rest
    | .exited => .exited
    | .panicked => .panicked

/-! ## The definition resolver: `LServer::message_response` (lib.rs:331-490) -/

/-- One capture of the TypeScript `public_field_definition` query
(lib.rs:436-443): the `@prop` node's text (the field name) and its
`start_position()` and `end_position()`.  The source reads only the start
position (lib.rs:460-461). -/
structure TsField : Type where
  name : List Char
  startPos : LsPos
  endPos : LsPos
deriving DecidableEq

/-- Per-request answers of the external collaborators (the filesystem and
the three tree-sitter grammars).  `readFile` is `fs::read_to_string` keyed
by local path (`None` is a read error).  The parse flags model
`Parser::parse` returning `None`; the query flags model `Query::new`
failing; `jsCaptures` lists, in match order, the text of the `@method`
capture of the JavaScript `vm`-member-expression query; `tsFields` lists,
in document order, the captures of the TypeScript field query.  (Node text
extraction with `utf8_text` over valid in-memory strings cannot fail and
has no failure flag; the `set_language` calls only fail on a library
version mismatch and are not modelled.) -/
structure ResolveEnv : Type where
  readFile : List Char → Option (List Char)
  htmlParseOk : Bool
  jsParseOk : Bool
  jsQueryOk : Bool
  jsCaptures : List (List Char)
  tsParseOk : Bool
  tsQueryOk : Bool
  tsFields : List TsField

/-- `LServer::get_first_opening_file` (lib.rs:492-503): walk the candidate
URIs in order; `path_from_uri` panics (`todo!`) on a non-`file://`
candidate; return the first candidate whose path reads successfully
together with its contents; `None` when none is readable. -/
def get_first_opening_file (readFile : List Char → Option (List Char)) :
    List (List Char) → PResult (Option (List Char × List Char))
  | [] => .ok none
  | u :: rest =>
    match path_from_uri u with
    | none => .panic
    | some p =>
      match readFile p with
      | some c => .ok (some (u, c))
      | none => get_first_opening_file readFile rest

/-- The inner `while let Some(m) = matches.next()` loop over the JavaScript
query matches (lib.rs:408-473): for each match the TypeScript companion is
parsed (a failed parse `continue`s to the next match), the field query is
built (a query error returns the null response), and the FIRST TypeScript
field match returns a `Location` made of the companion URI and the capture
node's start position used for BOTH range ends (lib.rs:459-470) — the
captured property name `prop` is never compared against the field name.
When no match returns, the fall-through result is the null response
(lib.rs:479). -/
def vmPropLoop (env : ResolveEnv) (tsUri : List Char) :
    List (List Char) → PResult LSResponseB
  | [] => .ok .nullResp
  | _prop :: rest =>
    if env.tsParseOk = false then vmPropLoop env tsUri rest
    else if env.tsQueryOk = false then .ok .nullResp
    else
      match env.tsFields with
      | [] => vmPropLoop env tsUri rest
      | f :: _ =>
        .ok (.locationResp ⟨tsUri, ⟨f.startPos, f.startPos⟩⟩)

/-- `LServer::message_response` (lib.rs:331-490).  `initialize` returns the
static capabilities; `shutdown` returns its body; an unknown method is a
`MethodNotFound` error.  For `textDocument/definition`: empty candidate
list → null response; `path_from_uri` on the request URI (panics on a
non-`file://` scheme); read the markup file (`InvalidRequest` error on
failure); find the first readable companion (none → null response); parse
the markup (`ParseError` on failure); re-parse the covering node's text as
JavaScript (`ParseError` on failure); build the `vm` query (error → null
response); then run `vmPropLoop`. -/
def message_response (env : ResolveEnv) : LSRequestBody → PResult LSResponseB
  | .initializeReq => .ok .initializeResp
  | .shutdown => .ok .shutdownResp
  | .unknown m => .err (.methodNotFound m)
  | .textDocumentDefinition uri _pos =>
    if (get_controller_possible_uris uri).isEmpty then .ok .nullResp
    else
      match path_from_uri uri with
      | none => .panic
      | some fp =>
        match env.readFile fp with
        | none => .err .invalidRequest
        | some _html =>
          match get_first_opening_file env.readFile (get_controller_possible_uris uri) with
          | .panic => .panic
          | .err e => .err e
          | .ok none => .ok .nullResp
          | .ok (some (tsUri, _ts)) =>
            if env.htmlParseOk = false then .err .parseError
            else if env.jsParseOk = false then .err .parseError
            else if env.jsQueryOk = false then .ok .nullResp
            else vmPropLoop env tsUri env.jsCaptures

/-! ### Lemmas about the resolver -/

theorem vmPropLoop_location (env : ResolveEnv) (u : List Char)
    (caps : List (List Char)) (loc : LSMessageResponseLocation)
    (h : vmPropLoop env u caps = .ok (.locationResp loc)) :
    ∃ f fs, env.tsFields = f :: fs ∧ loc = ⟨u, ⟨f.startPos, f.startPos⟩⟩ := by
  induction caps with
  | nil => simp [vmPropLoop] at h
  | cons p ps ih =>
    unfold vmPropLoop at h
    split at h
    · exact ih h
    · split at h
      · simp at h
      · cases hf : env.tsFields with
        | nil =>
          rw [hf] at h
          obtain ⟨f, fs, hcon, -⟩ := ih h
          rw [hf] at hcon
          simp at hcon
        | cons f fs =>
          rw [hf] at h
          simp at h
          exact ⟨f, fs, rfl, h.symm⟩

theorem vmPropLoop_fields_nil (env : ResolveEnv) (u : List Char)
    (htp : env.tsParseOk = true) (htq : env.tsQueryOk = true)
    (hfields : env.tsFields = []) (caps : List (List Char)) :
    vmPropLoop env u caps = .ok .nullResp := by
  induction caps with
  | nil => rfl
  | cons p ps ih =>
    unfold vmPropLoop
    rw [htp, if_neg (by simp), htq, if_neg (by simp), hfields]
    exact ih

theorem get_first_opening_file_nil (readFile : List Char → Option (List Char)) :
    get_first_opening_file readFile [] = .ok none := rfl

/-! ### General header-section lemmas for the amended framing claim -/

/-- C1 counterexample: the claim says the writer emits exactly ONE
`Content-Length` header followed by `\r\n\r\n` and the body with no extra
framing, which for the body `abc` would be the text
`Content-Length: 3\r\n\r\nabc`.  The writer's actual output duplicates the
header line and `println!` appends a newline. -/
theorem C1_counterexample :
    respond "abc".data ≠ "Content-Length: 3\r\n\r\nabc".data ∧
      respond "abc".data = "Content-Length: 3\r\nContent-Length: 3\r\n\r\nabc\n".data := by
  decide

/-- C1 (amended): for every outgoing response body, the writer emits
exactly TWO identical `Content-Length: <n>` header lines, then `\r\n\r\n`,
then the encoded body, then one trailing newline from `println!`; and `n`
is the exact byte length of the encoded body (bytes of the UTF-8 encoding,
not characters). -/
theorem C1_two_headers (body : List Char) :
    strToBytes (respond body) =
      clLineBytes (strToBytes body).length ++ clLineBytes (strToBytes body).length ++
        [13, 10] ++ strToBytes body ++ [10] := by
  rw [respond_wire, strToBytes_length]

/-- C2: writing any encodable message with the framing writer and then
reading the produced bytes back with the framing reader does NOT succeed:
it always fails with the fatal `ParseError::Header`, because the reader's
accumulating line buffer cannot re-parse the duplicated `Content-Length`
line emitted by the writer.  This refutes the round-trip property. -/
theorem C2_roundtrip_fails (body : List Char) :
    read_framing (strToBytes (respond body)) = .headerErr :=
  read_framing_respond body

/-- C4: companion-candidate derivation.  For a URI `dir/fname.html` whose
filename has no separator, the candidates are exactly
`dir/<Stem>Controller.ts`, `dir/<Stem>Directive.ts`, `dir/<Stem>.ts` in
that order, with the stem the pascal-case join of the filename split on
`-`; in particular `/a/b/x-y.html` gives `/a/b/XYController.ts`,
`/a/b/XYDirective.ts`, `/a/b/XY.ts`.  A URI not ending in `.html`, or one
without a directory separator, yields no candidates. -/
theorem C4_candidate_derivation :
    (∀ dir fname : List Char, '/' ∉ fname →
      get_controller_possible_uris (dir ++ '/' :: (fname ++ ".html".data)) =
        [dir ++ '/' :: (pascalifyL fname ++ "Controller.ts".data),
         dir ++ '/' :: (pascalifyL fname ++ "Directive.ts".data),
         dir ++ '/' :: (pascalifyL fname ++ ".ts".data)]) ∧
    get_controller_possible_uris "/a/b/x-y.html".data =
      ["/a/b/XYController.ts".data, "/a/b/XYDirective.ts".data, "/a/b/XY.ts".data] ∧
    (∀ uri : List Char, ¬ (".html".data <:+ uri) →
      get_controller_possible_uris uri = []) ∧
    (∀ uri : List Char, '/' ∉ uri → get_controller_possible_uris uri = []) := by
  refine ⟨get_controller_possible_uris_eq, by decide,
    get_controller_possible_uris_no_suffix, get_controller_possible_uris_no_slash⟩

/-- C4 witness: the general branch instantiated at `/a/b` and `x-y`. -/
theorem C4_witness :
    '/' ∉ "x-y".data ∧
      get_controller_possible_uris ("/a/b".data ++ '/' :: ("x-y".data ++ ".html".data)) =
        ["/a/b".data ++ '/' :: (pascalifyL "x-y".data ++ "Controller.ts".data),
         "/a/b".data ++ '/' :: (pascalifyL "x-y".data ++ "Directive.ts".data),
         "/a/b".data ++ '/' :: (pascalifyL "x-y".data ++ ".ts".data)] :=
  ⟨by decide, C4_candidate_derivation.1 "/a/b".data "x-y".data (by decide)⟩

/-- C5: the dispatch loop reaches the terminal Exited state exactly on an
`exit` notification (immediately, regardless of the failure count and of
whether `shutdown` was ever requested) or on the tenth consecutive
read/decode failure; every successful decode resets the consecutive-failure
counter to zero; a failed read never produces a response (it continues with
`responded = false`); and `shutdown` is answered and does not terminate the
loop. -/
theorem C5_loop_state_machine :
    (∀ (c : Nat) (rest : List ReadIn), run c (.msgExit :: rest) = .exited) ∧
    (∀ (c : Nat) (b : LSRequestBody), lsStep c (.msgReq b) = .cont 0 true) ∧
    (∀ c : Nat, lsStep c .msgInitialized = .cont 0 false) ∧
    (∀ c : Nat, lsStep c .readFail = .exited ∨
      lsStep c .readFail = .cont (c + 1) false) ∧
    (∀ (c : Nat) (m : ReadIn), lsStep c m = .exited ↔
      m = .msgExit ∨ (m = .readFail ∧ c = 9)) ∧
    (∀ (k c : Nat) (rest : List ReadIn), c + k < 10 →
      run c (List.replicate k .readFail ++ .msgInitialized :: rest) = run 0 rest) ∧
    (∀ (k c : Nat) (rest : List ReadIn), c + k = 10 → 1 ≤ k →
      run c (List.replicate k .readFail ++ rest) = .exited) ∧
    (∀ (c : Nat) (rest : List ReadIn), run c (.msgReq .shutdown :: rest) = run 0 rest) := by
  refine ⟨?_, ?_, ?_, ?_, ?_, ?_, ?_, ?_⟩
  · intro c rest
    simp [run, lsStep]
  · intro c b
    rfl
  · intro c
    rfl
  · intro c
    by_cases h : c + 1 = 10
    · left
      simp [lsStep, h]
    · right
      simp [lsStep, h]
  · intro c m
    cases m with
    | msgReq b => simp [lsStep]
    | msgInitialized => simp [lsStep]
    | msgExit => simp [lsStep]
    | msgResponse => simp [lsStep]
    | readFail =>
      by_cases h : c + 1 = 10
      · simp [lsStep, h]
        omega
      · simp [lsStep, h]
        omega
  · intro k
    induction k with
    | zero =>
      intro c rest h
      simp [run, lsStep]
    | succ k ih =>
      intro c rest h
      rw [List.replicate_succ, List.cons_append]
      have hstep : lsStep c .readFail = .cont (c + 1) false := by
        simp [lsStep, show ¬ c + 1 = 10 by omega]
      simp only [run, hstep]
      exact ih (c + 1) rest (by omega)
  · intro k
    induction k with
    | zero =>
      intro c rest h h1
      omega
    | succ k ih =>
      intro c rest h h1
      rw [List.replicate_succ, List.cons_append]
      by_cases hc : c + 1 = 10
      · have hstep : lsStep c .readFail = .exited := by simp [lsStep, hc]
        simp [run, hstep]
      · have hstep : lsStep c .readFail = .cont (c + 1) false := by
          simp [lsStep, hc]
        simp only [run, hstep]
        exact ih (c + 1) rest (by omega) (by omega)
  · intro c rest
    simp [run, lsStep]

/-- C5 witness: ten consecutive failures from a fresh counter exit the
loop. -/
theorem C5_witness :
    (0 : Nat) + 10 = 10 ∧ (1 : Nat) ≤ 10 ∧
      run 0 (List.replicate 10 ReadIn.readFail ++ []) = .exited :=
  ⟨rfl, by decide, C5_loop_state_machine.2.2.2.2.2.2.1 10 0 [] rfl (by decide)⟩

/-- C6: in property-definition lookup, once a `vm` property-access capture
exists, the resolver returns the Location of the FIRST TypeScript
public-field match in document order, with the companion file's URI — even
when that field's name differs from the captured property name: the
equality check is not enforced before returning. -/
theorem C6_first_field_location (env : ResolveEnv) (uri : List Char) (pos : LsPos)
    (fp html tsUri ts : List Char) (p : List Char) (ps : List (List Char))
    (f : TsField) (fs : List TsField)
    (hpath : path_from_uri uri = some fp)
    (hread : env.readFile fp = some html)
    (hcomp : get_first_opening_file env.readFile (get_controller_possible_uris uri) =
      .ok (some (tsUri, ts)))
    (hhtml : env.htmlParseOk = true) (hjs : env.jsParseOk = true)
    (hjq : env.jsQueryOk = true)
    (hcap : env.jsCaptures = p :: ps)
    (htp : env.tsParseOk = true) (htq : env.tsQueryOk = true)
    (hfields : env.tsFields = f :: fs)
    (_hname : f.name ≠ p) :
    message_response env (.textDocumentDefinition uri pos) =
      .ok (.locationResp ⟨tsUri, ⟨f.startPos, f.startPos⟩⟩) := by
  have hne : get_controller_possible_uris uri ≠ [] := by
    intro hc
    rw [hc] at hcomp
    simp [get_first_opening_file] at hcomp
  obtain ⟨u, us, hu⟩ := List.exists_cons_of_ne_nil hne
  have hcne : (get_controller_possible_uris uri).isEmpty = false := by
    rw [hu]
    rfl
  simp [message_response, hcne, hpath, hread, hcomp, hhtml, hjs, hjq, hcap,
    htp, htq, hfields, vmPropLoop]

/-- Concrete collaborator answers for the C6 witness: the markup file and
the `XYController.ts` companion both read successfully; the JavaScript
query captured the property name `save`, but the first (and only)
TypeScript field is named `unrelated`. -/
def envC6 : ResolveEnv where
  readFile := fun p =>
    if p = "/a/b/x-y.html".data then some "<div>vm.save()</div>".data
    else if p = "/a/b/XYController.ts".data then some "class XYController".data
    else none
  htmlParseOk := true
  jsParseOk := true
  jsQueryOk := true
  jsCaptures := ["save".data]
  tsParseOk := true
  tsQueryOk := true
  tsFields := [⟨"unrelated".data, ⟨3, 4⟩, ⟨3, 13⟩⟩]

/-- C6 witness: the resolver returns the location of the field named
`unrelated` although the markup captured `save`. -/
theorem C6_witness :
    "unrelated".data ≠ "save".data ∧
      message_response envC6
        (.textDocumentDefinition "file:///a/b/x-y.html".data ⟨0, 0⟩) =
        .ok (.locationResp ⟨"file:///a/b/XYController.ts".data, ⟨⟨3, 4⟩, ⟨3, 4⟩⟩⟩) :=
  ⟨by decide,
    C6_first_field_location envC6 "file:///a/b/x-y.html".data ⟨0, 0⟩
      "/a/b/x-y.html".data "<div>vm.save()</div>".data
      "file:///a/b/XYController.ts".data "class XYController".data
      "save".data [] ⟨"unrelated".data, ⟨3, 4⟩, ⟨3, 13⟩⟩ []
      (by decide) (by decide) (by decide) (by decide) (by decide) (by decide)
      (by decide) (by decide) (by decide) (by decide) (by decide)⟩

/-- Collaborator answers for the C7 counterexample: no file is readable at
all (in particular the markup file itself). -/
def envC7 : ResolveEnv where
  readFile := fun _ => none
  htmlParseOk := true
  jsParseOk := true
  jsQueryOk := true
  jsCaptures := []
  tsParseOk := true
  tsQueryOk := true
  tsFields := []

/-- C7 counterexample: a definition request whose candidate list is
nonempty but for which NO companion candidate is readable (the file store
is empty) — a case the claim says yields a null result — instead produces
an `InvalidRequest` ERROR response, because the markup file itself is read
first and its failure is propagated as an error. -/
theorem C7_counterexample :
    message_response envC7
        (.textDocumentDefinition "file:///a/b/x-y.html".data ⟨0, 0⟩) =
        .err .invalidRequest ∧
      message_response envC7
        (.textDocumentDefinition "file:///a/b/x-y.html".data ⟨0, 0⟩) ≠
        .ok .nullResp := by
  decide

/-- C7 (amended): provided the request URI is a `file://` URI whose markup
file is readable, inconclusive resolution produces the successful null
response and never an error: when the candidate list is empty (no
precondition needed), when no companion candidate is readable, when the
`vm`-query yields no capture, and when there is no TypeScript field match. -/
theorem C7_null_on_inconclusive :
    (∀ (env : ResolveEnv) (uri : List Char) (pos : LsPos),
      get_controller_possible_uris uri = [] →
      message_response env (.textDocumentDefinition uri pos) = .ok .nullResp) ∧
    (∀ (env : ResolveEnv) (uri : List Char) (pos : LsPos) (fp html : List Char),
      path_from_uri uri = some fp → env.readFile fp = some html →
      get_first_opening_file env.readFile (get_controller_possible_uris uri) = .ok none →
      message_response env (.textDocumentDefinition uri pos) = .ok .nullResp) ∧
    (∀ (env : ResolveEnv) (uri : List Char) (pos : LsPos) (fp html tsUri ts : List Char),
      path_from_uri uri = some fp → env.readFile fp = some html →
      get_first_opening_file env.readFile (get_controller_possible_uris uri) =
        .ok (some (tsUri, ts)) →
      env.htmlParseOk = true → env.jsParseOk = true → env.jsQueryOk = true →
      env.jsCaptures = [] →
      message_response env (.textDocumentDefinition uri pos) = .ok .nullResp) ∧
    (∀ (env : ResolveEnv) (uri : List Char) (pos : LsPos) (fp html tsUri ts : List Char),
      path_from_uri uri = some fp → env.readFile fp = some html →
      get_first_opening_file env.readFile (get_controller_possible_uris uri) =
        .ok (some (tsUri, ts)) →
      env.htmlParseOk = true → env.jsParseOk = true → env.jsQueryOk = true →
      env.tsParseOk = true → env.tsQueryOk = true → env.tsFields = [] →
      message_response env (.textDocumentDefinition uri pos) = .ok .nullResp) := by
  refine ⟨?_, ?_, ?_, ?_⟩
  · intro env uri pos hc
    simp [message_response, hc]
  · intro env uri pos fp html hpath hread hcomp
    cases hc : get_controller_possible_uris uri with
    | nil => simp [message_response, hc]
    | cons u us =>
      rw [hc] at hcomp
      simp [message_response, hc, hpath, hread, hcomp]
  · intro env uri pos fp html tsUri ts hpath hread hcomp hhtml hjs hjq hcap
    have hne : get_controller_possible_uris uri ≠ [] := by
      intro hc
      rw [hc] at hcomp
      simp [get_first_opening_file] at hcomp
    obtain ⟨u, us, hu⟩ := List.exists_cons_of_ne_nil hne
    have hcne : (get_controller_possible_uris uri).isEmpty = false := by
      rw [hu]
      rfl
    simp [message_response, hcne, hpath, hread, hcomp, hhtml, hjs, hjq, hcap,
      vmPropLoop]
  · intro env uri pos fp html tsUri ts hpath hread hcomp hhtml hjs hjq htp htq hfields
    have hne : get_controller_possible_uris uri ≠ [] := by
      intro hc
      rw [hc] at hcomp
      simp [get_first_opening_file] at hcomp
    obtain ⟨u, us, hu⟩ := List.exists_cons_of_ne_nil hne
    have hcne : (get_controller_possible_uris uri).isEmpty = false := by
      rw [hu]
      rfl
    simp [message_response, hcne, hpath, hread, hcomp, hhtml, hjs, hjq]
    exact vmPropLoop_fields_nil env tsUri htp htq hfields env.jsCaptures

/-- Collaborator answers for the C7 witness: the markup file is readable
but no sibling `.ts` companion exists. -/
def envC7w : ResolveEnv where
  readFile := fun p =>
    if p = "/a/b/x-y.html".data then some "<div></div>".data else none
  htmlParseOk := true
  jsParseOk := true
  jsQueryOk := true
  jsCaptures := []
  tsParseOk := true
  tsQueryOk := true
  tsFields := []

/-- C7 witness: a readable markup file with no readable companion yields
the null response, not an error. -/
theorem C7_witness :
    path_from_uri "file:///a/b/x-y.html".data = some "/a/b/x-y.html".data ∧
      envC7w.readFile "/a/b/x-y.html".data = some "<div></div>".data ∧
      get_first_opening_file envC7w.readFile
        (get_controller_possible_uris "file:///a/b/x-y.html".data) = .ok none ∧
      message_response envC7w
        (.textDocumentDefinition "file:///a/b/x-y.html".data ⟨0, 0⟩) = .ok .nullResp :=
  ⟨by decide, by decide, by decide,
    C7_null_on_inconclusive.2.1 envC7w "file:///a/b/x-y.html".data ⟨0, 0⟩
      "/a/b/x-y.html".data "<div></div>".data (by decide) (by decide) (by decide)⟩

/-- C8: URI-to-path resolution strips a literal `file://` prefix and
returns the remainder; for every URI not carrying that prefix (any other
scheme) it fails explicitly (the `todo!` panic, modelled as `none`) and
never returns a path obtained by misinterpreting the URI. -/
theorem C8_path_from_uri :
    (∀ rest : List Char, path_from_uri ("file://".data ++ rest) = some rest) ∧
    (∀ uri : List Char, ¬ ("file://".data <+: uri) → path_from_uri uri = none) := by
  constructor
  · intro rest
    exact stripPrefixL_append _ _
  · intro uri h
    exact (stripPrefixL_eq_none_iff _ _).2 h

/-- C8 witness: a `file://` URI resolves to its path; an `https://` URI
fails. -/
theorem C8_witness :
    path_from_uri ("file://".data ++ "/p/q.html".data) = some "/p/q.html".data ∧
      path_from_uri "https://h/p".data = none :=
  ⟨C8_path_from_uri.1 "/p/q.html".data,
    C8_path_from_uri.2 "https://h/p".data
      ((stripPrefixL_eq_none_iff _ _).1 (by decide))⟩

/-- C9: every Location produced by a `textDocument/definition` request has
a zero-width range: both ends equal the START position of the first matched
field-name node (`node.start_position()` is used for `end` as well, rather
than the node's end position). -/
theorem C9_zero_width (env : ResolveEnv) (req : LSRequestBody)
    (loc : LSMessageResponseLocation)
    (h : message_response env req = .ok (.locationResp loc)) :
    loc.range.stop = loc.range.start ∧
      ∃ f fs, env.tsFields = f :: fs ∧ loc.range.start = f.startPos ∧
        loc.range.stop = f.startPos := by
  obtain ⟨u, caps, hvm⟩ : ∃ u caps, vmPropLoop env u caps = .ok (.locationResp loc) := by
    cases req with
    | initializeReq => simp [message_response] at h
    | shutdown => simp [message_response] at h
    | unknown m => simp [message_response] at h
    | textDocumentDefinition uri pos =>
      simp only [message_response] at h
      split at h
      · simp at h
      · split at h
        · simp at h
        · split at h
          · simp at h
          · split at h
            · simp at h
            · simp at h
            · simp at h
            · split at h
              · simp at h
              · split at h
                · simp at h
                · split at h
                  · simp at h
                  · exact ⟨_, _, h⟩
  obtain ⟨f, fs, hf, hloc⟩ := vmPropLoop_location env u caps loc hvm
  subst hloc
  exact ⟨rfl, f, fs, hf, rfl, rfl⟩

/-- Collaborator answers for the C9 witness: markup `app-main.html` with a
captured `load`, companion `AppMainController.ts` whose field node spans
from (7,2) to (7,6). -/
def envC9 : ResolveEnv where
  readFile := fun p =>
    if p = "/w/app-main.html".data then some "<p>vm.load()</p>".data
    else if p = "/w/AppMainController.ts".data then some "class AppMainController".data
    else none
  htmlParseOk := true
  jsParseOk := true
  jsQueryOk := true
  jsCaptures := ["load".data]
  tsParseOk := true
  tsQueryOk := true
  tsFields := [⟨"load".data, ⟨7, 2⟩, ⟨7, 6⟩⟩]

/-- C9 witness: the returned Location collapses the node's (7,2)-(7,6)
span to the zero-width range (7,2)-(7,2). -/
theorem C9_witness :
    message_response envC9
        (.textDocumentDefinition "file:///w/app-main.html".data ⟨0, 5⟩) =
        .ok (.locationResp ⟨"file:///w/AppMainController.ts".data, ⟨⟨7, 2⟩, ⟨7, 2⟩⟩⟩) ∧
      (⟨⟨7, 2⟩, ⟨7, 2⟩⟩ : LsTypeRange).stop = (⟨⟨7, 2⟩, ⟨7, 2⟩⟩ : LsTypeRange).start :=
  ⟨by decide,
    (C9_zero_width envC9
      (.textDocumentDefinition "file:///w/app-main.html".data ⟨0, 5⟩)
      ⟨"file:///w/AppMainController.ts".data, ⟨⟨7, 2⟩, ⟨7, 2⟩⟩⟩ (by decide)).1⟩

/-- C10: a decoded message of the `Response` variant (which the untagged
`LSMessage` decoding accepts, e.g. for the body `null`) drives the
dispatch loop into the `todo!()` arm, a panic: the loop does NOT handle
every successfully decoded message without panicking. -/
theorem C10_response_todo_panics :
    lsStep 0 .msgResponse = .panicked ∧ run 0 [ReadIn.msgResponse] = .panicked :=
  ⟨rfl, rfl⟩
